import Mathlib

/-
Verification of the resumable, checkpointed traversal engine of the
kaggle-downloader repository (src/main.py): the export_kernels and
export_notebooks flows, their fetch-outcome classification, the exclusion
checkpoint, and the artifact writes.  The external collaborators
(client.fetch_kernel_refs, client.fetch_notebook, nbformat, nbconvert,
json.load) are modelled at their interface: each is a value or function
describing the outcome the library call produces for a given input.
-/

namespace KaggleDL

/-- Content of a JSON file as seen by json.load when a list of strings is
expected: it parses as a list of strings, it is an empty file, or it is
otherwise malformed.  json.load raises JSONDecodeError in the last two cases. -/
inductive FileData where
  | strList (refs : List String)
  | emptyFile
  | malformed
deriving DecidableEq

/-- Result of json.load on a file expected to hold a list of strings;
none models a raised json.decoder.JSONDecodeError. -/
def jsonLoadList : FileData → Option (List String)
  | FileData.strList refs => some refs
  | FileData.emptyFile => none
  | FileData.malformed => none

/-- Loading of the exclusion file in export_kernels and export_notebooks:
json.load, with JSONDecodeError handled by falling back to the empty list. -/
def loadExcluded (f : FileData) : List String :=
  (jsonLoadList f).getD []

/-- The argparse FileType argument handling (mode r) for the exclude option:
opening a missing file fails argument parsing and aborts the process before
any export function runs; an existing file is handed on whatever it contains. -/
def openFileR : Option FileData → Except String FileData
  | none => Except.error "argument -e: cannot open file"
  | some f => Except.ok f

/-- Metadata record of a fetched notebook.  The language and kernelType
fields model the corresponding metadata.get calls, which yield None when the
key is missing; rest abstracts all remaining fields, which only matter in
that json.dump serializes them into the metadata artifact. -/
structure Metadata where
  language : Option String
  kernelType : Option String
  rest : String
deriving DecidableEq

/-- Blob of a fetched notebook; source models the result of the
source-field lookup on the blob, None when the key is missing. -/
structure Blob where
  source : Option String
deriving DecidableEq

/-- Result of client.fetch_notebook on one kernel ref: a payload with
optional metadata and blob entries, a kaggle.rest.ApiException carrying a
status code, or any other raised exception. -/
inductive FetchNotebookResult where
  | ok (metadata : Option Metadata) (blob : Option Blob)
  | apiError (status : Nat)
  | localError (msg : String)
deriving DecidableEq

/-- Combined result of nbformat.reads followed by the PythonExporter
conversion on a source string: the produced Python text, a raised
NotebookValidationError, a raised NotJSONError, or any other raised
exception. -/
inductive ConvertResult where
  | ok (python : String)
  | validationErr
  | notJSONErr
  | otherErr (msg : String)
deriving DecidableEq

/-- Classification of one execution of the export_notebooks loop body:
success reaches the artifact writes and then the exclusion append;
permanentSkip prints a skip diagnostic and still reaches the exclusion
append; transientSkip executes a continue statement, so the exclusion
append and the checkpoint write are bypassed. -/
inductive Outcome where
  | success
  | permanentSkip (reason : String)
  | transientSkip (reason : String)
deriving DecidableEq

/-- Content written to a file in the output directory. -/
inductive FileContent where
  | metaJson (m : Metadata)
  | text (s : String)
  | refsJson (refs : List String)
deriving DecidableEq

/-- Model of the replace call applied to a kernel ref with pattern "/" and a
three-character dollar-sign replacement, at the character-list level. -/
def escapeChars : List Char → List Char
  | [] => []
  | c :: cs => if c = '/' then '$' :: '$' :: '$' :: escapeChars cs else c :: escapeChars cs

/-- The escaped form of a kernel ref used to derive notebook output
filenames. -/
def escapeRef (ref : String) : String :=
  String.mk (escapeChars ref.data)

/-- One iteration of the export_notebooks loop body on kernel_ref, given the
behaviour of client.fetch_notebook and of the notebook-to-script conversion.
Returns the ordered list of file operations performed on the output
directory (opening a file with mode w+ truncates it, an operation recorded
as a write of empty text) together with the classification of the
iteration.  The branch structure follows the source: fetch, then the
missing-metadata, language, kernelType and missing-source checks, then the
metadata write, then the script or notebook source write; exception
handlers map 403 and 404 to permanent skips, other ApiException statuses and
unexpected exceptions to transient skips, and the two nbformat errors to
the invalid-notebook permanent skip. -/
def notebookStep (fetch : String → FetchNotebookResult)
    (conv : String → ConvertResult) (ref : String) :
    List (String × FileContent) × Outcome :=
  match fetch ref with
  | FetchNotebookResult.apiError status =>
      if status = 403 then ([], Outcome.permanentSkip "forbidden")
      else if status = 404 then ([], Outcome.permanentSkip "not found")
      else ([], Outcome.transientSkip "remote service error")
  | FetchNotebookResult.localError msg => ([], Outcome.transientSkip msg)
  | FetchNotebookResult.ok none _ => ([], Outcome.permanentSkip "missing metadata")
  | FetchNotebookResult.ok (some m) blob =>
      if m.language ≠ some "python" then ([], Outcome.permanentSkip "kernel language")
      else if m.kernelType ≠ some "script" ∧ m.kernelType ≠ some "notebook" then
        ([], Outcome.permanentSkip "kernel type")
      else
        match blob with
        | none => ([], Outcome.permanentSkip "missing source")
        | some b =>
          match b.source with
          | none => ([], Outcome.permanentSkip "missing source")
          | some src =>
            let metaOp := (escapeRef ref ++ ".meta.json", FileContent.metaJson m)
            let pyName := escapeRef ref ++ ".py"
            if m.kernelType = some "script" then
              ([metaOp, (pyName, FileContent.text src)], Outcome.success)
            else
              match conv src with
              | ConvertResult.ok py =>
                  ([metaOp, (pyName, FileContent.text ""), (pyName, FileContent.text py)],
                    Outcome.success)
              | ConvertResult.validationErr =>
                  ([metaOp, (pyName, FileContent.text "")],
                    Outcome.permanentSkip "invalid notebook")
              | ConvertResult.notJSONErr =>
                  ([metaOp, (pyName, FileContent.text "")],
                    Outcome.permanentSkip "invalid notebook")
              | ConvertResult.otherErr msg =>
                  ([metaOp, (pyName, FileContent.text "")], Outcome.transientSkip msg)

/-- Whether the loop body falls through to the exclusion append (success or
permanent skip), as opposed to executing continue (transient skip). -/
def stepExcludes (fetch : String → FetchNotebookResult)
    (conv : String → ConvertResult) (ref : String) : Bool :=
  match (notebookStep fetch conv ref).2 with
  | Outcome.transientSkip _ => false
  | _ => true

/-- State of one export run: the in-memory excluded_refs list, the current
content of the exclusion file, the ordered list of file operations performed
on the output directory, and the list of identifiers passed to the fetch
capability so far. -/
structure RunState where
  excludedRefs : List String
  checkpointFile : FileData
  fsOps : List (String × FileContent)
  fetched : List String
deriving DecidableEq

/-- One full iteration of the export_notebooks loop: perform the body,
then, unless a continue was executed, append kernel_ref to excluded_refs
and rewrite the exclusion file with the whole updated list. -/
def processOne (fetch : String → FetchNotebookResult) (conv : String → ConvertResult)
    (st : RunState) (ref : String) : RunState :=
  let ws := (notebookStep fetch conv ref).1
  if stepExcludes fetch conv ref then
    RunState.mk (st.excludedRefs ++ [ref]) (FileData.strList (st.excludedRefs ++ [ref]))
      (st.fsOps ++ ws) (st.fetched ++ [ref])
  else
    RunState.mk st.excludedRefs st.checkpointFile (st.fsOps ++ ws) (st.fetched ++ [ref])

/-- The export_notebooks traversal loop over a given iteration order of the
pending set. -/
def runPending (fetch : String → FetchNotebookResult) (conv : String → ConvertResult)
    (pending : List String) (st : RunState) : RunState :=
  pending.foldl (processOne fetch conv) st

/-- The Python set difference of universe minus excluded, in one particular
iteration order: duplicates collapsed, members of excluded removed.  Any
other iteration order of the set is a permutation of this list. -/
def pendingOf (univ excluded : List String) : List String :=
  univ.dedup.filter (fun r => decide (¬ r ∈ excluded))

/-- Universe resolution of export_notebooks: concatenation, over the files
of the kernel directory, of the list each file holds; a file that raises
JSONDecodeError is diagnosed and contributes nothing. -/
def listAllKernelRefs (files : List FileData) : List String :=
  files.foldl (fun acc f => acc ++ (jsonLoadList f).getD []) []

/-- One full export_notebooks run over a given universe of kernel refs and a
given exclusion file, iterating the pending set in the canonical order. -/
def notebookRun (fetch : String → FetchNotebookResult) (conv : String → ConvertResult)
    (univ : List String) (excl : FileData) : RunState :=
  runPending fetch conv (pendingOf univ (loadExcluded excl))
    (RunState.mk (loadExcluded excl) excl [] [])

/-- Result of client.fetch_kernel_refs on one competition ref: a list of
kernel refs, or a raised exception, which export_kernels does not catch. -/
inductive KernelsFetch where
  | ok (refs : List String)
  | raises (msg : String)
deriving DecidableEq

/-- One iteration of the export_kernels loop on competition_ref: fetch the
kernel refs, write a listing file named after the unescaped ref when the
list is nonempty, append the ref to excluded_refs and rewrite the exclusion
file.  A raised fetch exception propagates out of the loop: the error value
carries the state at the moment of the abort. -/
def kernelsProcessOne (fetch : String → KernelsFetch) (st : RunState) (ref : String) :
    Except RunState RunState :=
  match fetch ref with
  | KernelsFetch.raises _ =>
      Except.error
        (RunState.mk st.excludedRefs st.checkpointFile st.fsOps (st.fetched ++ [ref]))
  | KernelsFetch.ok refs =>
      let ws := if refs = [] then [] else [(ref ++ ".json", FileContent.refsJson refs)]
      Except.ok
        (RunState.mk (st.excludedRefs ++ [ref]) (FileData.strList (st.excludedRefs ++ [ref]))
          (st.fsOps ++ ws) (st.fetched ++ [ref]))

/-- The export_kernels traversal loop over a given iteration order of the
pending set; an uncaught fetch exception aborts the remaining iterations. -/
def runKernelsPending (fetch : String → KernelsFetch) :
    List String → RunState → Except RunState RunState
  | [], st => Except.ok st
  | ref :: rest, st =>
    match kernelsProcessOne fetch st ref with
    | Except.error st2 => Except.error st2
    | Except.ok st2 => runKernelsPending fetch rest st2

/-- The state in which an export_kernels run ends, whether it completed or
was aborted by a propagating exception. -/
def kernelsEndState : Except RunState RunState → RunState
  | Except.ok st => st
  | Except.error st => st

/-- One full export_kernels run over a given universe of competition refs
and a given exclusion file, in the canonical iteration order. -/
def kernelsRun (fetch : String → KernelsFetch) (univ : List String) (excl : FileData) :
    Except RunState RunState :=
  runKernelsPending fetch (pendingOf univ (loadExcluded excl))
    (RunState.mk (loadExcluded excl) excl [] [])

/-- Whether a fetch_kernel_refs call returns normally. -/
def kernelsFetchOk : KernelsFetch → Bool
  | KernelsFetch.ok _ => true
  | KernelsFetch.raises _ => false

/-- Contents of the exclusion file after each completed micro-step of one
checkpoint save: before the save, after the open call in mode w has
truncated the file, and after json.dump has written the full list. -/
def saveFileStates (prior : FileData) (refs : List String) : List FileData :=
  [prior, FileData.emptyFile, FileData.strList refs]

/-- File content observed when the process dies after k completed
micro-steps of a checkpoint save of refs over a file holding prior. -/
def crashDuringSave (prior : FileData) (refs : List String) (k : Nat) : FileData :=
  (saveFileStates prior refs).getD k (FileData.strList refs)

/-- Whether the remote payload passed every content-shape check of the
export_notebooks body: metadata present, language python, kernelType script
or notebook, blob present with a source field. -/
def contentChecksPass (fetch : String → FetchNotebookResult) (ref : String) : Bool :=
  match fetch ref with
  | FetchNotebookResult.ok (some m) (some b) =>
      decide (m.language = some "python") &&
        (decide (m.kernelType = some "script") || decide (m.kernelType = some "notebook")) &&
        !(decide (b.source = none))
  | _ => false

/-- Writes performed by one export_kernels iteration whose fetch returns
normally. -/
def kernelsWrites (fetch : String → KernelsFetch) (ref : String) :
    List (String × FileContent) :=
  match fetch ref with
  | KernelsFetch.ok refs =>
      if refs = [] then [] else [(ref ++ ".json", FileContent.refsJson refs)]
  | KernelsFetch.raises _ => []

theorem runPending_cons (fetch : String → FetchNotebookResult)
    (conv : String → ConvertResult) (r : String) (l : List String) (st : RunState) :
    runPending fetch conv (r :: l) st = runPending fetch conv l (processOne fetch conv st r) :=
  rfl

theorem runPending_excludedRefs (fetch : String → FetchNotebookResult)
    (conv : String → ConvertResult) (l : List String) (st : RunState) :
    (runPending fetch conv l st).excludedRefs
      = st.excludedRefs ++ l.filter (stepExcludes fetch conv) := by
  induction l generalizing st with
  | nil => simp [runPending]
  | cons r rs ih =>
    rw [runPending_cons, ih]
    by_cases h : stepExcludes fetch conv r = true <;>
      simp [processOne, h, List.filter_cons]

theorem runPending_fsOps (fetch : String → FetchNotebookResult)
    (conv : String → ConvertResult) (l : List String) (st : RunState) :
    (runPending fetch conv l st).fsOps
      = st.fsOps ++ l.flatMap (fun r => (notebookStep fetch conv r).1) := by
  induction l generalizing st with
  | nil => simp [runPending]
  | cons r rs ih =>
    rw [runPending_cons, ih]
    by_cases h : stepExcludes fetch conv r = true <;>
      simp [processOne, h]

theorem runPending_fetched (fetch : String → FetchNotebookResult)
    (conv : String → ConvertResult) (l : List String) (st : RunState) :
    (runPending fetch conv l st).fetched = st.fetched ++ l := by
  induction l generalizing st with
  | nil => simp [runPending]
  | cons r rs ih =>
    rw [runPending_cons, ih]
    by_cases h : stepExcludes fetch conv r = true <;>
      simp [processOne, h]

theorem runPending_checkpointFile (fetch : String → FetchNotebookResult)
    (conv : String → ConvertResult) (l : List String) (st : RunState) :
    (runPending fetch conv l st).checkpointFile
      = if l.filter (stepExcludes fetch conv) = [] then st.checkpointFile
        else FileData.strList (st.excludedRefs ++ l.filter (stepExcludes fetch conv)) := by
  induction l generalizing st with
  | nil => simp [runPending]
  | cons r rs ih =>
    rw [runPending_cons, ih]
    by_cases h : stepExcludes fetch conv r = true
    · by_cases h2 : rs.filter (stepExcludes fetch conv) = [] <;>
        simp [processOne, h, h2, List.filter_cons]
    · simp [processOne, h, List.filter_cons]

theorem runKernelsPending_ok (fetch : String → KernelsFetch)
    (l : List String) (st : RunState)
    (hok : ∀ r ∈ l, kernelsFetchOk (fetch r) = true) :
    (runKernelsPending fetch l st).isOk = true ∧
    (kernelsEndState (runKernelsPending fetch l st)).excludedRefs
        = st.excludedRefs ++ l ∧
    (kernelsEndState (runKernelsPending fetch l st)).fsOps
        = st.fsOps ++ l.flatMap (kernelsWrites fetch) ∧
    (kernelsEndState (runKernelsPending fetch l st)).fetched = st.fetched ++ l ∧
    (kernelsEndState (runKernelsPending fetch l st)).checkpointFile
        = if l = [] then st.checkpointFile
          else FileData.strList (st.excludedRefs ++ l) := by
  induction l generalizing st with
  | nil => exact ⟨rfl, by simp [runKernelsPending, kernelsEndState],
      by simp [runKernelsPending, kernelsEndState],
      by simp [runKernelsPending, kernelsEndState],
      by simp [runKernelsPending, kernelsEndState]⟩
  | cons r rs ih =>
    have hr := hok r (by simp)
    cases hfr : fetch r with
    | raises m => rw [hfr] at hr; simp [kernelsFetchOk] at hr
    | ok refs =>
      have ihr := ih
        (RunState.mk (st.excludedRefs ++ [r]) (FileData.strList (st.excludedRefs ++ [r]))
          (st.fsOps ++ kernelsWrites fetch r) (st.fetched ++ [r]))
        (fun x hx => hok x (by simp [hx]))
      rcases ihr with ⟨ih1, ih2, ih3, ih4, ih5⟩
      have hstep : runKernelsPending fetch (r :: rs) st
          = runKernelsPending fetch rs
            (RunState.mk (st.excludedRefs ++ [r]) (FileData.strList (st.excludedRefs ++ [r]))
              (st.fsOps ++ kernelsWrites fetch r) (st.fetched ++ [r])) := by
        simp [runKernelsPending, kernelsProcessOne, hfr, kernelsWrites]
      rw [hstep]
      refine ⟨ih1, ?_, ?_, ?_, ?_⟩
      · rw [ih2]; simp
      · rw [ih3]; simp
      · rw [ih4]; simp
      · rw [ih5]
        by_cases h2 : rs = []
        · simp [h2]
        · simp [h2]

theorem runKernelsPending_fetched_count (fetch : String → KernelsFetch)
    (l : List String) (st : RunState) (id : String) :
    ((kernelsEndState (runKernelsPending fetch l st)).fetched).count id
      ≤ st.fetched.count id + l.count id := by
  induction l generalizing st with
  | nil => simp [runKernelsPending, kernelsEndState]
  | cons r rs ih =>
    cases hfr : fetch r with
    | raises m =>
      simp [runKernelsPending, kernelsProcessOne, hfr, kernelsEndState,
        List.count_append, List.count_cons, List.count_nil]
    | ok refs =>
      have hstep : runKernelsPending fetch (r :: rs) st
          = runKernelsPending fetch rs
            (RunState.mk (st.excludedRefs ++ [r]) (FileData.strList (st.excludedRefs ++ [r]))
              (st.fsOps ++ kernelsWrites fetch r) (st.fetched ++ [r])) := by
        simp [runKernelsPending, kernelsProcessOne, hfr, kernelsWrites]
      rw [hstep]
      have := ih (RunState.mk (st.excludedRefs ++ [r])
        (FileData.strList (st.excludedRefs ++ [r]))
        (st.fsOps ++ kernelsWrites fetch r) (st.fetched ++ [r]))
      simp only [List.count_append, List.count_cons, List.count_nil] at this ⊢
      omega

theorem escapeChars_no_slash (l : List Char) : ¬ '/' ∈ escapeChars l := by
  induction l with
  | nil => simp [escapeChars]
  | cons c cs ih =>
    by_cases h : c = '/'
    · simp only [escapeChars, if_pos h, List.mem_cons, not_or]
      exact ⟨by decide, by decide, by decide, ih⟩
    · simp only [escapeChars, if_neg h, List.mem_cons, not_or]
      exact ⟨fun hc => h hc.symm, ih⟩

theorem notebookStep_props (fetch : String → FetchNotebookResult)
    (conv : String → ConvertResult) (ref : String) :
    ((notebookStep fetch conv ref).1 ≠ [] → contentChecksPass fetch ref = true) ∧
    ((notebookStep fetch conv ref).2 = Outcome.success → (notebookStep fetch conv ref).1 ≠ []) ∧
    (∀ r, (notebookStep fetch conv ref).2 = Outcome.permanentSkip r →
      r ≠ "invalid notebook" → (notebookStep fetch conv ref).1 = []) ∧
    ((notebookStep fetch conv ref).2 = Outcome.permanentSkip "invalid notebook" →
      (notebookStep fetch conv ref).1.map Prod.fst
          = [escapeRef ref ++ ".meta.json", escapeRef ref ++ ".py"] ∧
      (notebookStep fetch conv ref).1.getLast?
          = some (escapeRef ref ++ ".py", FileContent.text "")) ∧
    ((∀ mo bl, fetch ref ≠ FetchNotebookResult.ok mo bl) →
      (notebookStep fetch conv ref).1 = []) ∧
    (∀ nm c, (nm, c) ∈ (notebookStep fetch conv ref).1 →
      nm = escapeRef ref ++ ".meta.json" ∨ nm = escapeRef ref ++ ".py") := by
  rcases hfr : fetch ref with ⟨mo, bl⟩ | s | msg
  · rcases mo with _ | m
    · simp [notebookStep, contentChecksPass, hfr]
    · rcases bl with _ | b
      · simp only [notebookStep, contentChecksPass, hfr]
        split <;> simp_all <;> split <;> simp_all
      · rcases b with ⟨src?⟩
        rcases src? with _ | src
        · simp only [notebookStep, contentChecksPass, hfr]
          split <;> simp_all <;> split <;> simp_all
        · simp only [notebookStep, contentChecksPass, hfr]
          by_cases h1 : m.language = some "python"
          · by_cases h2 : m.kernelType = some "script"
            · simp_all
              tauto
            · by_cases h3 : m.kernelType = some "notebook"
              · rcases hc : conv src <;> simp_all <;> tauto
              · simp_all
          · simp_all
  · simp only [notebookStep, contentChecksPass, hfr]
    split <;> simp_all <;> split <;> simp_all
  · simp [notebookStep, contentChecksPass, hfr]

theorem escapeRef_append_data (ref suffix : String) :
    (escapeRef ref ++ suffix).data = escapeChars ref.data ++ suffix.data := by
  simp [escapeRef, String.data_append]

theorem no_slash_in_escaped_name (ref suffix : String) (hs : ¬ '/' ∈ suffix.data) :
    ¬ '/' ∈ (escapeRef ref ++ suffix).data := by
  rw [escapeRef_append_data]
  simp only [List.mem_append, not_or]
  exact ⟨escapeChars_no_slash ref.data, hs⟩

theorem pendingOf_nodup (univ ex : List String) : (pendingOf univ ex).Nodup :=
  (List.nodup_dedup univ).filter _

theorem mem_pendingOf (univ ex : List String) (r : String) :
    r ∈ pendingOf univ ex ↔ r ∈ univ ∧ ¬ r ∈ ex := by
  simp [pendingOf, List.mem_filter, List.mem_dedup]

theorem pendingOf_after (univ E : List String) (p : String → Bool) :
    pendingOf univ (E ++ (pendingOf univ E).filter p)
      = (pendingOf univ E).filter (fun r => !(p r)) := by
  unfold pendingOf
  conv_rhs => rw [List.filter_filter]
  apply List.filter_congr
  intro r hr
  by_cases he : r ∈ E <;> by_cases hp : p r = true <;>
    simp [List.mem_append, List.mem_filter, List.mem_dedup, he, hp, hr]

theorem filter_excludes_of_retries (fetch : String → FetchNotebookResult)
    (conv : String → ConvertResult) (l : List String) :
    (l.filter (fun r => !(stepExcludes fetch conv r))).filter (stepExcludes fetch conv)
      = [] := by
  rw [List.filter_filter]
  simp

theorem stepExcludes_of_transient (fetch : String → FetchNotebookResult)
    (conv : String → ConvertResult) (ref reason : String)
    (h : (notebookStep fetch conv ref).2 = Outcome.transientSkip reason) :
    stepExcludes fetch conv ref = false := by
  unfold stepExcludes
  rw [h]

/-- C1 (amended): in export_notebooks, a transient skip (remote-service error
that is neither not-found nor forbidden, or an unexpected local failure)
leaves excluded_refs and the exclusion file untouched, the loop continues
with the next identifier, the identifier is absent from the final exclusion
list and file of the run and therefore still pending on the next run; when
the transient failure originates in the fetch call itself no file operation
is performed, but a transient failure during conversion occurs after the
metadata file has already been written and the source file created, so in
that one case artifacts are left behind. -/
theorem c1_transient_skip_retry (fetch : String → FetchNotebookResult)
    (conv : String → ConvertResult) (ref reason : String) (st : RunState)
    (rest univ : List String) (f0 : FileData)
    (h : (notebookStep fetch conv ref).2 = Outcome.transientSkip reason)
    (hu : ref ∈ univ) (he : ¬ ref ∈ loadExcluded f0) :
    (processOne fetch conv st ref).excludedRefs = st.excludedRefs ∧
    (processOne fetch conv st ref).checkpointFile = st.checkpointFile ∧
    runPending fetch conv (ref :: rest) st
      = runPending fetch conv rest (processOne fetch conv st ref) ∧
    ¬ ref ∈ (notebookRun fetch conv univ f0).excludedRefs ∧
    ref ∈ pendingOf univ (loadExcluded (notebookRun fetch conv univ f0).checkpointFile) ∧
    (match fetch ref with
      | FetchNotebookResult.ok _ _ => True
      | _ => (notebookStep fetch conv ref).1 = []) := by
  have hex := stepExcludes_of_transient fetch conv ref reason h
  have hmemf : ¬ ref ∈ (pendingOf univ (loadExcluded f0)).filter
      (stepExcludes fetch conv) := by
    intro hm
    rcases List.mem_filter.mp hm with ⟨_, hp⟩
    rw [hex] at hp
    exact Bool.false_ne_true hp
  refine ⟨by simp [processOne, hex], by simp [processOne, hex], rfl, ?_, ?_, ?_⟩
  · unfold notebookRun
    rw [runPending_excludedRefs]
    simp only [List.mem_append, not_or]
    exact ⟨he, hmemf⟩
  · unfold notebookRun
    rw [runPending_checkpointFile]
    by_cases hc : (pendingOf univ (loadExcluded f0)).filter (stepExcludes fetch conv) = []
    · rw [if_pos hc]
      exact (mem_pendingOf univ (loadExcluded f0) ref).mpr ⟨hu, he⟩
    · rw [if_neg hc]
      refine (mem_pendingOf univ _ ref).mpr ⟨hu, ?_⟩
      simp only [loadExcluded, jsonLoadList, Option.getD_some, List.mem_append, not_or]
      exact ⟨he, hmemf⟩
  · rcases hf : fetch ref with ⟨mo, bl⟩ | s | msg
    · trivial
    · exact (notebookStep_props fetch conv ref).2.2.2.2.1 (by rw [hf]; intro mo bl hn; cases hn)
    · exact (notebookStep_props fetch conv ref).2.2.2.2.1 (by rw [hf]; intro mo bl hn; cases hn)

/-- C1 witness: a deterministic remote-service error with status 500 on
identifier a, universe containing only a, malformed initial exclusion file:
after the run, a is still in the pending set of the next run. -/
theorem c1_witness :
    "a" ∈ pendingOf ["a"]
      (loadExcluded (notebookRun (fun _ => FetchNotebookResult.apiError 500)
        (fun _ => ConvertResult.ok "") ["a"] FileData.malformed).checkpointFile) :=
  (c1_transient_skip_retry (fun _ => FetchNotebookResult.apiError 500)
    (fun _ => ConvertResult.ok "") "a" "remote service error"
    (RunState.mk [] FileData.malformed [] []) [] ["a"] FileData.malformed
    rfl (by decide) (by decide)).2.2.2.2.1

/-- C1 counterexample: the claim asserts that no artifact is written on a
transient skip, but a conversion step that raises an unexpected exception is
classified transient after the metadata file has been written and the source
file created: the loop body performs two file operations and still ends in a
transient skip. -/
theorem c1_counterexample :
    (notebookStep
        (fun _ => FetchNotebookResult.ok
          (some (Metadata.mk (some "python") (some "notebook") "meta"))
          (some (Blob.mk (some "cells"))))
        (fun _ => ConvertResult.otherErr "conversion crashed") "user/kernel").2
      = Outcome.transientSkip "conversion crashed" ∧
    (notebookStep
        (fun _ => FetchNotebookResult.ok
          (some (Metadata.mk (some "python") (some "notebook") "meta"))
          (some (Blob.mk (some "cells"))))
        (fun _ => ConvertResult.otherErr "conversion crashed") "user/kernel").1 ≠ [] := by
  decide

/-- C2 (amended): in export_notebooks, whenever the loop body does not end in
a transient skip (so on success and on every permanent skip), the identifier
is appended to the in-memory excluded_refs and the exclusion file is
immediately rewritten with the updated list, before the next identifier is
attempted; file operations happen only once every content-shape check has
passed, so the artifact writer completes only on success — except that the
invalid-notebook permanent skip fires after the metadata file has been
written and the source file created. -/
theorem c2_exclude_and_save (fetch : String → FetchNotebookResult)
    (conv : String → ConvertResult) (ref : String) (st : RunState)
    (rest : List String)
    (hres : stepExcludes fetch conv ref = true) :
    (processOne fetch conv st ref).excludedRefs = st.excludedRefs ++ [ref] ∧
    (processOne fetch conv st ref).checkpointFile
        = FileData.strList (st.excludedRefs ++ [ref]) ∧
    runPending fetch conv (ref :: rest) st
        = runPending fetch conv rest (processOne fetch conv st ref) ∧
    ((notebookStep fetch conv ref).1 ≠ [] → contentChecksPass fetch ref = true) ∧
    ((notebookStep fetch conv ref).2 = Outcome.success →
        (notebookStep fetch conv ref).1 ≠ []) ∧
    (match (notebookStep fetch conv ref).2 with
      | Outcome.permanentSkip r =>
          r = "invalid notebook" ∨ (notebookStep fetch conv ref).1 = []
      | _ => True) := by
  obtain ⟨h1, h2, h3, _, _, _⟩ := notebookStep_props fetch conv ref
  refine ⟨by simp [processOne, hres], by simp [processOne, hres], rfl, h1, h2, ?_⟩
  cases ho : (notebookStep fetch conv ref).2 with
  | success => trivial
  | transientSkip r => trivial
  | permanentSkip r =>
      by_cases hr : r = "invalid notebook"
      · exact Or.inl hr
      · exact Or.inr (h3 r ho hr)

/-- C2 witness: a not-found status on identifier a makes the body a permanent
skip; the exclusion file is rewritten with the updated list at once. -/
theorem c2_witness :
    (processOne (fun _ => FetchNotebookResult.apiError 404)
        (fun _ => ConvertResult.ok "") (RunState.mk [] FileData.malformed [] [])
        "a").checkpointFile
      = FileData.strList ["a"] :=
  (c2_exclude_and_save (fun _ => FetchNotebookResult.apiError 404)
    (fun _ => ConvertResult.ok "") "a" (RunState.mk [] FileData.malformed [] [])
    [] (by decide)).2.1

/-- C2 counterexample: the claim asserts that the artifact writer runs only
in the success case, but a notebook whose source raises a validation error is
classified as the invalid-notebook permanent skip after the metadata file was
written and the source file created: the body performs file operations yet
ends in a permanent skip. -/
theorem c2_counterexample :
    (notebookStep
        (fun _ => FetchNotebookResult.ok
          (some (Metadata.mk (some "python") (some "notebook") "md"))
          (some (Blob.mk (some "bad cells"))))
        (fun _ => ConvertResult.validationErr) "owner/nb").2
      = Outcome.permanentSkip "invalid notebook" ∧
    (notebookStep
        (fun _ => FetchNotebookResult.ok
          (some (Metadata.mk (some "python") (some "notebook") "md"))
          (some (Blob.mk (some "bad cells"))))
        (fun _ => ConvertResult.validationErr) "owner/nb").1 ≠ [] := by
  decide

theorem notebookStep_skip_writes_shape (fetch : String → FetchNotebookResult)
    (conv : String → ConvertResult) (ref : String)
    (h : (notebookStep fetch conv ref).2 ≠ Outcome.success) :
    (notebookStep fetch conv ref).1 = [] ∨
      ((notebookStep fetch conv ref).1.map Prod.fst
          = [escapeRef ref ++ ".meta.json", escapeRef ref ++ ".py"] ∧
        (notebookStep fetch conv ref).1.getLast?
          = some (escapeRef ref ++ ".py", FileContent.text "")) := by
  rcases hfr : fetch ref with ⟨mo, bl⟩ | s | msg
  · rcases mo with _ | m
    · simp [notebookStep, hfr]
    · rcases bl with _ | b
      · simp only [notebookStep, hfr] at h ⊢
        split <;> simp_all <;> split <;> simp_all
      · rcases b with ⟨src?⟩
        rcases src? with _ | src
        · simp only [notebookStep, hfr] at h ⊢
          split <;> simp_all <;> split <;> simp_all
        · simp only [notebookStep, hfr] at h ⊢
          by_cases h1 : m.language = some "python"
          · by_cases h2 : m.kernelType = some "script"
            · simp_all
            · by_cases h3 : m.kernelType = some "notebook"
              · rcases hc : conv src <;> simp_all
              · simp_all
          · simp_all
  · simp only [notebookStep, hfr]
    split <;> simp_all <;> split <;> simp_all
  · simp [notebookStep, hfr]

/-- C4 (amended): on any skip variant, permanent or transient, that is
classified before the artifact-writing stage — every permanent skip other
than invalid notebook, and every transient skip originating in the fetch
call itself — no output file is written; a skip raised at the conversion
step, namely the invalid-notebook permanent skip and a transient unexpected
conversion failure, leaves exactly the fully written metadata file and an
empty source file; no skip of any kind leaves anything else, and a skip
performing writes is only possible once every content-shape check passed. -/
theorem c4_skip_writes (fetch : String → FetchNotebookResult)
    (conv : String → ConvertResult) (ref : String)
    (h : (notebookStep fetch conv ref).2 ≠ Outcome.success) :
    ((notebookStep fetch conv ref).1 = [] ∨
      ((notebookStep fetch conv ref).1.map Prod.fst
          = [escapeRef ref ++ ".meta.json", escapeRef ref ++ ".py"] ∧
        (notebookStep fetch conv ref).1.getLast?
          = some (escapeRef ref ++ ".py", FileContent.text ""))) ∧
    (∀ r, (notebookStep fetch conv ref).2 = Outcome.permanentSkip r →
      r ≠ "invalid notebook" → (notebookStep fetch conv ref).1 = []) ∧
    (match fetch ref with
      | FetchNotebookResult.ok _ _ => True
      | _ => (notebookStep fetch conv ref).1 = []) ∧
    ((notebookStep fetch conv ref).1 ≠ [] → contentChecksPass fetch ref = true) := by
  obtain ⟨h1, -, h3, -, h5, -⟩ := notebookStep_props fetch conv ref
  refine ⟨notebookStep_skip_writes_shape fetch conv ref h, h3, ?_, h1⟩
  rcases hf : fetch ref with ⟨mo, bl⟩ | s | msg
  · trivial
  · exact h5 (by rw [hf]; intro mo bl hn; cases hn)
  · exact h5 (by rw [hf]; intro mo bl hn; cases hn)

/-- C4 witness: a forbidden status is a skip that writes nothing. -/
theorem c4_witness :
    (notebookStep (fun _ => FetchNotebookResult.apiError 403)
        (fun _ => ConvertResult.ok "") "a").1 = [] :=
  (c4_skip_writes (fun _ => FetchNotebookResult.apiError 403)
    (fun _ => ConvertResult.ok "") "a" (by decide)).2.1 "forbidden" rfl (by decide)

/-- C4 counterexample: the claim asserts that an invalid-notebook skip leaves
no metadata file and no source file, but on a source that is not valid JSON
the body writes the metadata file in full and creates an empty source file
before the parse failure is raised. -/
theorem c4_counterexample :
    (notebookStep
        (fun _ => FetchNotebookResult.ok
          (some (Metadata.mk (some "python") (some "notebook") "md"))
          (some (Blob.mk (some "not json"))))
        (fun _ => ConvertResult.notJSONErr) "a/b").2
      = Outcome.permanentSkip "invalid notebook" ∧
    (notebookStep
        (fun _ => FetchNotebookResult.ok
          (some (Metadata.mk (some "python") (some "notebook") "md"))
          (some (Blob.mk (some "not json"))))
        (fun _ => ConvertResult.notJSONErr) "a/b").1
      = [("a$$$b.meta.json",
          FileContent.metaJson (Metadata.mk (some "python") (some "notebook") "md")),
         ("a$$$b.py", FileContent.text "")] := by
  decide

/-- C3: the checkpoint save opens the exclusion file in truncating write
mode and then dumps the whole list, so a save that fails between the open
and the completed dump leaves the file empty: with a prior complete write
recording identifier a and a subsequent save of a and b that dies after the
truncating open, the prior complete write is destroyed, and the identifier a
recorded by the last completed save is no longer recoverable on load. -/
theorem c3_save_truncates_prior_write :
    crashDuringSave (FileData.strList ["a"]) ["a", "b"] 1 = FileData.emptyFile ∧
    crashDuringSave (FileData.strList ["a"]) ["a", "b"] 1 ≠ FileData.strList ["a"] ∧
    loadExcluded (crashDuringSave (FileData.strList ["a"]) ["a", "b"] 1) = [] ∧
    ¬ "a" ∈ loadExcluded (crashDuringSave (FileData.strList ["a"]) ["a", "b"] 1) := by
  decide

/-- C5 (amended): once the exclusion file exists and could be opened, any
empty or unparseable content is recovered as the empty exclusion list and
the traversal proceeds over the full deduplicated universe, and a file
holding a list is loaded as that list; but a missing exclusion file is not
recovered: the argparse file-opening step fails the run before any export
function is reached. -/
theorem c5_load_recovery (l univ : List String) :
    loadExcluded FileData.emptyFile = [] ∧
    loadExcluded FileData.malformed = [] ∧
    loadExcluded (FileData.strList l) = l ∧
    pendingOf univ (loadExcluded FileData.emptyFile) = univ.dedup ∧
    pendingOf univ (loadExcluded FileData.malformed) = univ.dedup ∧
    (openFileR (some FileData.emptyFile)).isOk = true ∧
    (openFileR none).isOk = false := by
  refine ⟨rfl, rfl, rfl, ?_, ?_, rfl, rfl⟩ <;>
    simp [pendingOf, loadExcluded, jsonLoadList]

/-- C5 counterexample: the claim asserts that load returns an empty exclusion
set whenever the backing file is missing, but a missing file makes the
argparse file-opening step fail, aborting the run before load is reached. -/
theorem c5_counterexample :
    (openFileR none).isOk = false ∧
    openFileR none = Except.error "argument -e: cannot open file" :=
  ⟨rfl, rfl⟩

theorem notebookRun_excludedRefs (fetch : String → FetchNotebookResult)
    (conv : String → ConvertResult) (univ : List String) (excl : FileData) :
    (notebookRun fetch conv univ excl).excludedRefs
      = loadExcluded excl
        ++ (pendingOf univ (loadExcluded excl)).filter (stepExcludes fetch conv) := by
  unfold notebookRun
  rw [runPending_excludedRefs]

theorem notebookRun_checkpointFile (fetch : String → FetchNotebookResult)
    (conv : String → ConvertResult) (univ : List String) (excl : FileData) :
    (notebookRun fetch conv univ excl).checkpointFile
      = if (pendingOf univ (loadExcluded excl)).filter (stepExcludes fetch conv) = []
        then excl
        else FileData.strList (loadExcluded excl
          ++ (pendingOf univ (loadExcluded excl)).filter (stepExcludes fetch conv)) := by
  unfold notebookRun
  rw [runPending_checkpointFile]

theorem notebookRun_fsOps (fetch : String → FetchNotebookResult)
    (conv : String → ConvertResult) (univ : List String) (excl : FileData) :
    (notebookRun fetch conv univ excl).fsOps
      = (pendingOf univ (loadExcluded excl)).flatMap
          (fun r => (notebookStep fetch conv r).1) := by
  unfold notebookRun
  rw [runPending_fsOps]
  rfl

theorem notebookRun_fetched (fetch : String → FetchNotebookResult)
    (conv : String → ConvertResult) (univ : List String) (excl : FileData) :
    (notebookRun fetch conv univ excl).fetched = pendingOf univ (loadExcluded excl) := by
  unfold notebookRun
  rw [runPending_fetched]
  rfl

/-- C6 (amended): in the notebooks flow no fetch outcome aborts the run —
the loop attempts every pending identifier in order, whatever the outcomes;
in the kernels flow the run completes when no fetch raises, but a raised
fetch exception is uncaught there and aborts the run, so the kernels half
holds only under that hypothesis. -/
theorem c6_no_fetch_outcome_aborts (fetchN : String → FetchNotebookResult)
    (conv : String → ConvertResult) (pendN : List String) (stN : RunState)
    (fetchK : String → KernelsFetch) (pendK : List String) (stK : RunState)
    (hok : ∀ r ∈ pendK, kernelsFetchOk (fetchK r) = true) :
    (runPending fetchN conv pendN stN).fetched = stN.fetched ++ pendN ∧
    (runKernelsPending fetchK pendK stK).isOk = true ∧
    (kernelsEndState (runKernelsPending fetchK pendK stK)).fetched
        = stK.fetched ++ pendK := by
  obtain ⟨h1, -, -, h4, -⟩ := runKernelsPending_ok fetchK pendK stK hok
  exact ⟨runPending_fetched fetchN conv pendN stN, h1, h4⟩

/-- C6 witness: the notebooks loop attempts both identifiers even though
every fetch fails transiently, and a kernels run whose fetches all return
completes. -/
theorem c6_witness :
    (runPending (fun _ => FetchNotebookResult.apiError 500)
        (fun _ => ConvertResult.ok "") ["a", "b"]
        (RunState.mk [] FileData.malformed [] [])).fetched = [] ++ ["a", "b"] :=
  (c6_no_fetch_outcome_aborts (fun _ => FetchNotebookResult.apiError 500)
    (fun _ => ConvertResult.ok "") ["a", "b"] (RunState.mk [] FileData.malformed [] [])
    (fun _ => KernelsFetch.ok ["k"]) ["c"] (RunState.mk [] FileData.malformed [] [])
    (by decide)).1

/-- C6 counterexample: the claim asserts that in both flows no fetch outcome
aborts the run, but in export_kernels a fetch exception on the first pending
competition aborts the traversal: the run ends in the error state, the
second pending competition is never attempted, and nothing was excluded. -/
theorem c6_counterexample :
    (kernelsRun
        (fun r => if r = "a" then KernelsFetch.raises "boom" else KernelsFetch.ok ["k1"])
        ["a", "b"] FileData.malformed).isOk = false ∧
    (kernelsEndState (kernelsRun
        (fun r => if r = "a" then KernelsFetch.raises "boom" else KernelsFetch.ok ["k1"])
        ["a", "b"] FileData.malformed)).fetched = ["a"] ∧
    (kernelsEndState (kernelsRun
        (fun r => if r = "a" then KernelsFetch.raises "boom" else KernelsFetch.ok ["k1"])
        ["a", "b"] FileData.malformed)).excludedRefs = [] := by
  decide

/-- C7 (amended): with deterministic fetch and conversion behaviour and no
external state change, the second run's pending set is exactly the first
run's transiently skipped identifiers — so it is empty, and the second run
processes zero identifiers, precisely when the first run had no transient
skips; the checkpoint file is unchanged by the second run, and the second
run adds no file operation that the first run did not already perform. -/
theorem c7_second_run (fetch : String → FetchNotebookResult)
    (conv : String → ConvertResult) (univ : List String) (f0 : FileData) :
    pendingOf univ (loadExcluded (notebookRun fetch conv univ f0).checkpointFile)
      = (pendingOf univ (loadExcluded f0)).filter
          (fun r => !(stepExcludes fetch conv r)) ∧
    (notebookRun fetch conv univ
        (notebookRun fetch conv univ f0).checkpointFile).checkpointFile
      = (notebookRun fetch conv univ f0).checkpointFile ∧
    ((notebookRun fetch conv univ f0).fsOps
        ++ (notebookRun fetch conv univ
              (notebookRun fetch conv univ f0).checkpointFile).fsOps).toFinset
      = (notebookRun fetch conv univ f0).fsOps.toFinset ∧
    (notebookRun fetch conv univ
        (notebookRun fetch conv univ f0).checkpointFile).fetched
      = (pendingOf univ (loadExcluded f0)).filter
          (fun r => !(stepExcludes fetch conv r)) := by
  by_cases hc : (pendingOf univ (loadExcluded f0)).filter (stepExcludes fetch conv) = []
  · have hall : ∀ a ∈ pendingOf univ (loadExcluded f0),
        (!(stepExcludes fetch conv a)) = true := by
      intro a ha
      have h := List.filter_eq_nil_iff.mp hc a ha
      simp only [Bool.not_eq_true'] at h ⊢
      simp [h]
    have hfilter : (pendingOf univ (loadExcluded f0)).filter
        (fun r => !(stepExcludes fetch conv r)) = pendingOf univ (loadExcluded f0) :=
      List.filter_eq_self.mpr hall
    have hcp1 : (notebookRun fetch conv univ f0).checkpointFile = f0 := by
      rw [notebookRun_checkpointFile, if_pos hc]
    rw [hcp1, hfilter]
    refine ⟨rfl, hcp1, ?_, ?_⟩
    · rw [List.toFinset_append, Finset.union_self]
    · rw [notebookRun_fetched]
  · have hcp1 : (notebookRun fetch conv univ f0).checkpointFile
        = FileData.strList (loadExcluded f0
            ++ (pendingOf univ (loadExcluded f0)).filter (stepExcludes fetch conv)) := by
      rw [notebookRun_checkpointFile, if_neg hc]
    have hload : loadExcluded (notebookRun fetch conv univ f0).checkpointFile
        = loadExcluded f0
            ++ (pendingOf univ (loadExcluded f0)).filter (stepExcludes fetch conv) := by
      rw [hcp1]
      rfl
    have hp2 : pendingOf univ (loadExcluded (notebookRun fetch conv univ f0).checkpointFile)
        = (pendingOf univ (loadExcluded f0)).filter
            (fun r => !(stepExcludes fetch conv r)) := by
      rw [hload]
      exact pendingOf_after univ (loadExcluded f0) (stepExcludes fetch conv)
    have hnil : (pendingOf univ
        (loadExcluded (notebookRun fetch conv univ f0).checkpointFile)).filter
          (stepExcludes fetch conv) = [] := by
      rw [hp2]
      exact filter_excludes_of_retries fetch conv _
    refine ⟨hp2, ?_, ?_, ?_⟩
    · rw [notebookRun_checkpointFile, if_pos hnil]
    · rw [List.toFinset_append]
      apply Finset.union_eq_left.mpr
      intro x hx
      rw [List.mem_toFinset] at hx ⊢
      rw [notebookRun_fsOps] at hx ⊢
      rw [hp2] at hx
      rcases List.mem_flatMap.mp hx with ⟨r, hr, hxr⟩
      exact List.mem_flatMap.mpr ⟨r, List.mem_of_mem_filter hr, hxr⟩
    · rw [notebookRun_fetched]
      exact hp2

/-- C7 counterexample: the claim asserts that the second run processes zero
identifiers, but with a deterministic transient remote error on the only
identifier in the universe, the first run excludes nothing and the second
run attempts that identifier again. -/
theorem c7_counterexample :
    (notebookRun (fun _ => FetchNotebookResult.apiError 500)
        (fun _ => ConvertResult.ok "") ["a"]
        ((notebookRun (fun _ => FetchNotebookResult.apiError 500)
            (fun _ => ConvertResult.ok "") ["a"] FileData.malformed).checkpointFile)).fetched
      = ["a"] ∧
    (notebookRun (fun _ => FetchNotebookResult.apiError 500)
        (fun _ => ConvertResult.ok "") ["a"]
        ((notebookRun (fun _ => FetchNotebookResult.apiError 500)
            (fun _ => ConvertResult.ok "") ["a"] FileData.malformed).checkpointFile)).fetched
      ≠ [] := by
  decide

/-- C8 (amended): permuting the iteration order of the pending set yields
the same final exclusion set and the same set of performed file operations
in the notebooks flow unconditionally, and in the kernels flow whenever no
fetch raises; a raising fetch aborts the kernels run at an order-dependent
point, so there the property fails (see the counterexample). -/
theorem c8_order_independence (fetch : String → FetchNotebookResult)
    (conv : String → ConvertResult) (st : RunState) (l1 l2 : List String)
    (fetchK : String → KernelsFetch) (stK : RunState) (k1 k2 : List String)
    (h12 : l1.Perm l2) (hk : k1.Perm k2)
    (hok : ∀ r ∈ k1, kernelsFetchOk (fetchK r) = true) :
    (runPending fetch conv l1 st).excludedRefs.toFinset
        = (runPending fetch conv l2 st).excludedRefs.toFinset ∧
    (runPending fetch conv l1 st).fsOps.toFinset
        = (runPending fetch conv l2 st).fsOps.toFinset ∧
    (runKernelsPending fetchK k1 stK).isOk = true ∧
    (runKernelsPending fetchK k2 stK).isOk = true ∧
    (kernelsEndState (runKernelsPending fetchK k1 stK)).excludedRefs.toFinset
        = (kernelsEndState (runKernelsPending fetchK k2 stK)).excludedRefs.toFinset ∧
    (kernelsEndState (runKernelsPending fetchK k1 stK)).fsOps.toFinset
        = (kernelsEndState (runKernelsPending fetchK k2 stK)).fsOps.toFinset := by
  have hok2 : ∀ r ∈ k2, kernelsFetchOk (fetchK r) = true := fun r hr =>
    hok r (hk.mem_iff.mpr hr)
  obtain ⟨ha1, ha2, ha3, -, -⟩ := runKernelsPending_ok fetchK k1 stK hok
  obtain ⟨hb1, hb2, hb3, -, -⟩ := runKernelsPending_ok fetchK k2 stK hok2
  refine ⟨?_, ?_, ha1, hb1, ?_, ?_⟩
  · rw [runPending_excludedRefs, runPending_excludedRefs]
    apply List.toFinset.ext
    intro x
    simp [List.mem_filter, h12.mem_iff]
  · rw [runPending_fsOps, runPending_fsOps]
    apply List.toFinset.ext
    intro x
    simp [List.mem_flatMap, h12.mem_iff]
  · rw [ha2, hb2]
    apply List.toFinset.ext
    intro x
    simp [hk.mem_iff]
  · rw [ha3, hb3]
    apply List.toFinset.ext
    intro x
    simp [List.mem_flatMap, hk.mem_iff]

/-- C8 witness: two opposite iteration orders over two identifiers whose
fetches all return produce the same exclusion set. -/
theorem c8_witness :
    (kernelsEndState (runKernelsPending (fun _ => KernelsFetch.ok ["k"]) ["a", "b"]
        (RunState.mk [] FileData.malformed [] []))).excludedRefs.toFinset
      = (kernelsEndState (runKernelsPending (fun _ => KernelsFetch.ok ["k"]) ["b", "a"]
        (RunState.mk [] FileData.malformed [] []))).excludedRefs.toFinset :=
  (c8_order_independence (fun _ => FetchNotebookResult.apiError 500)
    (fun _ => ConvertResult.ok "") (RunState.mk [] FileData.malformed [] [])
    ["x", "y"] ["y", "x"]
    (fun _ => KernelsFetch.ok ["k"]) (RunState.mk [] FileData.malformed [] [])
    ["a", "b"] ["b", "a"] (by decide) (by decide) (by decide)).2.2.2.2.1

/-- C8 counterexample: the claim quantifies over every fetch capability, but
in the kernels flow a deterministic raising fetch on one identifier makes
the final exclusion set depend on the iteration order: processing the
raising identifier first excludes nothing, processing it second excludes the
other identifier. -/
theorem c8_counterexample :
    (["a", "b"] : List String).Perm ["b", "a"] ∧
    (kernelsEndState (runKernelsPending
        (fun r => if r = "a" then KernelsFetch.raises "boom" else KernelsFetch.ok ["k"])
        ["a", "b"] (RunState.mk [] FileData.malformed [] []))).excludedRefs.toFinset
      ≠ (kernelsEndState (runKernelsPending
        (fun r => if r = "a" then KernelsFetch.raises "boom" else KernelsFetch.ok ["k"])
        ["b", "a"] (RunState.mk [] FileData.malformed [] []))).excludedRefs.toFinset := by
  decide

/-- C9 (amended): every file operation of the export_notebooks loop body
targets a name derived from the identifier with every path separator
escaped, so notebook output names contain no slash; the export_kernels
listing writer, by contrast, uses the identifier unescaped, appending the
json suffix to it directly unchanged. -/
theorem c9_filename_escaping (fetch : String → FetchNotebookResult)
    (conv : String → ConvertResult) (ref nm : String) (c : FileContent)
    (fetchK : String → KernelsFetch) (stK : RunState) (refK : String)
    (refsK : List String)
    (hmem : (nm, c) ∈ (notebookStep fetch conv ref).1)
    (hfk : fetchK refK = KernelsFetch.ok refsK) (hne : refsK ≠ []) :
    ¬ '/' ∈ nm.data ∧
    (kernelsEndState (kernelsProcessOne fetchK stK refK)).fsOps
      = stK.fsOps ++ [(refK ++ ".json", FileContent.refsJson refsK)] := by
  constructor
  · rcases (notebookStep_props fetch conv ref).2.2.2.2.2 nm c hmem with h | h <;> rw [h]
    · exact no_slash_in_escaped_name ref ".meta.json" (by decide)
    · exact no_slash_in_escaped_name ref ".py" (by decide)
  · simp [kernelsProcessOne, hfk, hne, kernelsEndState]

/-- C9 witness: the metadata filename the notebook writer derives from an
identifier containing a slash contains no slash. -/
theorem c9_witness :
    ¬ '/' ∈ ("u$$$k.meta.json" : String).data :=
  (c9_filename_escaping
    (fun _ => FetchNotebookResult.ok
      (some (Metadata.mk (some "python") (some "script") "md"))
      (some (Blob.mk (some "print(1)"))))
    (fun _ => ConvertResult.ok "") "u/k" "u$$$k.meta.json"
    (FileContent.metaJson (Metadata.mk (some "python") (some "script") "md"))
    (fun _ => KernelsFetch.ok ["k"]) (RunState.mk [] FileData.malformed [] [])
    "c" ["k"] (by decide) rfl (by decide)).1

/-- C9 counterexample: the claim asserts that both writers escape path
separators, but the kernels listing writer derives the output filename from
the raw identifier: a competition ref containing a slash yields a filename
containing a slash. -/
theorem c9_counterexample :
    (kernelsEndState (kernelsRun (fun _ => KernelsFetch.ok ["k"]) ["a/b"]
        FileData.malformed)).fsOps
      = [("a/b.json", FileContent.refsJson ["k"])] ∧
    '/' ∈ ("a/b.json" : String).data := by
  decide

/-- C10: in both flows the pending set is a set difference that collapses
duplicates inside listing files, across listing files, and inside the loaded
exclusion list, so in one run the fetch capability is invoked at most once
per identifier, whatever iteration order the set produces. -/
theorem c10_fetch_at_most_once (fetch : String → FetchNotebookResult)
    (conv : String → ConvertResult) (files : List FileData) (excl : FileData)
    (l : List String) (fetchK : String → KernelsFetch) (univK : List String)
    (exclK : FileData) (lk : List String) (id : String)
    (hl : l.Perm (pendingOf (listAllKernelRefs files) (loadExcluded excl)))
    (hlk : lk.Perm (pendingOf univK (loadExcluded exclK))) :
    ((runPending fetch conv l
        (RunState.mk (loadExcluded excl) excl [] [])).fetched).count id ≤ 1 ∧
    ((kernelsEndState (runKernelsPending fetchK lk
        (RunState.mk (loadExcluded exclK) exclK [] []))).fetched).count id ≤ 1 := by
  have h1 : l.Nodup := (hl.nodup_iff).mpr (pendingOf_nodup _ _)
  have h2 : lk.Nodup := (hlk.nodup_iff).mpr (pendingOf_nodup _ _)
  constructor
  · rw [runPending_fetched]
    simp only [List.nil_append]
    exact List.nodup_iff_count_le_one.mp h1 id
  · have hcnt := runKernelsPending_fetched_count fetchK lk
      (RunState.mk (loadExcluded exclK) exclK [] []) id
    have hlk1 : lk.count id ≤ 1 := List.nodup_iff_count_le_one.mp h2 id
    simp only [List.count_nil] at hcnt
    omega

/-- C10 witness: duplicates inside and across listing files and inside the
exclusion list collapse to a single pending occurrence, fetched once. -/
theorem c10_witness :
    ((runPending (fun _ => FetchNotebookResult.apiError 500)
        (fun _ => ConvertResult.ok "") ["a"]
        (RunState.mk (loadExcluded (FileData.strList ["b", "b"]))
          (FileData.strList ["b", "b"]) [] [])).fetched).count "a" ≤ 1 ∧
    ((kernelsEndState (runKernelsPending (fun _ => KernelsFetch.ok ["k"]) ["c"]
        (RunState.mk (loadExcluded FileData.malformed)
          FileData.malformed [] []))).fetched).count "a" ≤ 1 :=
  c10_fetch_at_most_once (fun _ => FetchNotebookResult.apiError 500)
    (fun _ => ConvertResult.ok "")
    [FileData.strList ["a", "a"], FileData.malformed, FileData.strList ["a", "b"]]
    (FileData.strList ["b", "b"]) ["a"]
    (fun _ => KernelsFetch.ok ["k"]) ["c", "c"] FileData.malformed ["c"] "a"
    (by decide) (by decide)

end KaggleDL
